import Mathlib

/-!
Verification of the NPPES download-and-filter pipeline
(src/get_nppez_records.py) via a shallow embedding in Lean.

The script is a linear pipeline:
  find_latest_monthly_v2  : pick the lexicographically greatest link matching
                            a case-insensitive pattern on the index page;
  http_get + ZipFile      : download and open the archive (library calls,
                            modelled as an input of the run);
  member location         : among .csv members prefer one whose lowered name
                            contains "npidata_pfile", else the largest by
                            uncompressed size;
  chunked filtering       : per pandas chunk, strip column names, keep rows
                            whose deactivation value is empty/"nan"/"none"
                            and whose state value upper-strips to "DE",
                            append to the output file, header only once.

Cells are modelled as Option String: `none` is a pandas NaN (a missing or
NA-parsed field); astype(str) renders it as the text "nan", and to_csv
renders it as the empty field.
-/

namespace NPPES

/-- FILTER_STATE constant from the script. -/
def FILTER_STATE : String := "DE"

/-- DEACTIVATION_COLS constant from the script. -/
def DEACTIVATION_COLS : List String := ["NPI Deactivation Date"]

/-- STATE_COLS constant from the script. -/
def STATE_COLS : List String :=
  ["Provider Business Practice Location Address State",
   "Provider Business Practice Location State",
   "Provider Business Practice Location Address State Name"]

/-- The whitespace characters stripped by str.strip; the data here is ASCII,
so the ASCII whitespace set suffices. -/
def isPyWsp (c : Char) : Bool :=
  c = ' ' || c = '\t' || c = '\n' || c = '\r' || c = '\x0b' || c = '\x0c'

/-- str.strip(): drop whitespace at both ends. -/
def pyStrip (s : String) : String :=
  ⟨((s.data.dropWhile isPyWsp).reverse.dropWhile isPyWsp).reverse⟩

/-- str.lower(): the data here is ASCII, where Char.toLower agrees with
Python lower-casing. -/
def pyLower (s : String) : String := ⟨s.data.map Char.toLower⟩

/-- str.upper(): the data here is ASCII, where Char.toUpper agrees with
Python upper-casing. -/
def pyUpper (s : String) : String := ⟨s.data.map Char.toUpper⟩

/-- A cell of a pandas DataFrame read with dtype=str: either a string or NaN. -/
abbrev Cell := Option String

/-- A row is the list of its cells, in header order. -/
abbrev Row := List Cell

/-- One pandas chunk: a header (column names) and rows of string cells. -/
structure Batch where
  header : List String
  rows : List Row
deriving DecidableEq, Repr

/-- astype(str): NaN stringifies to "nan"; strings are unchanged. -/
def cellStr : Cell → String
  | none => "nan"
  | some s => s

/-- df[col] for one row: the cell at the first index of col in the header. -/
def getCell (h : List String) (r : Row) (c : String) : Cell :=
  match h.findIdx? (fun x => x = c) with
  | some i => (r.get? i).getD none
  | none => none

/-- The kept condition of the deactivation filter, applied to the stripped
cell text: s == "" or s.lower() in ["nan", "none"]. -/
def isNullTxt (s : String) : Bool :=
  s == "" || pyLower s == "nan" || pyLower s == "none"

/-- Active-record predicate of one row: if some accepted deactivation column
is in the header, its stripped text must be empty or null-like; with no such
column the row passes. -/
def activeKeep (h : List String) (r : Row) : Bool :=
  match DEACTIVATION_COLS.find? (fun c => h.contains c) with
  | none => true
  | some c => isNullTxt (pyStrip (cellStr (getCell h r c)))

/-- In-region predicate of one row: if some accepted state column is in the
header, its upper-cased stripped text must equal FILTER_STATE; with no such
column the row passes. -/
def stateKeep (h : List String) (r : Row) : Bool :=
  match STATE_COLS.find? (fun c => h.contains c) with
  | none => true
  | some c => pyStrip (pyUpper (cellStr (getCell h r c))) == FILTER_STATE

/-- Column-name normalization: strip each column name. -/
def stripHeader (h : List String) : List String := h.map pyStrip

/-- One chunk through the two filters of main: strip the header, keep active
rows, then keep in-region rows. -/
def filterBatch (b : Batch) : Batch :=
  let h := stripHeader b.header
  let r1 := b.rows.filter (fun r => activeKeep h r)
  let r2 := r1.filter (fun r => stateKeep h r)
  ⟨h, r2⟩

/-- One line of the output CSV: a header line or a data line. -/
inductive OutLine
  | hdr (cells : List String)
  | row (cells : List String)
deriving DecidableEq, Repr

/-- to_csv cell rendering: NaN becomes the empty field. -/
def cellOut : Cell → String
  | none => ""
  | some s => s

/-- to_csv rendering of one data row. -/
def rowOut (r : Row) : List String := r.map cellOut

/-- The loop state of main: output file contents, header_written flag,
running total. -/
structure LoopState where
  file : List OutLine
  header_written : Bool
  total : Nat
deriving Repr

/-- One iteration of the chunk loop of main: filter the chunk; if empty,
skip; else append (header first if not yet written) and count the rows. -/
def stepChunk (st : LoopState) (b : Batch) : LoopState :=
  let fb := filterBatch b
  if fb.rows.isEmpty then st
  else
    { file := st.file ++ (if st.header_written then [] else [OutLine.hdr fb.header])
        ++ fb.rows.map (fun r => OutLine.row (rowOut r)),
      header_written := true,
      total := st.total + fb.rows.length }

/-- The chunk loop of main, started on the freshly truncated output file. -/
def processChunks (chunks : List Batch) : LoopState :=
  chunks.foldl stepChunk ⟨[], false, 0⟩

/-- Number of header lines in an output file. -/
def hdrCount (file : List OutLine) : Nat :=
  (file.filter (fun l => match l with | .hdr _ => true | .row _ => false)).length

/-- The data lines of an output file, header lines removed. -/
def rowLines (file : List OutLine) : List OutLine :=
  file.filter (fun l => match l with | .hdr _ => false | .row _ => true)

/-- Substring containment (Python "pat in s") on character lists. -/
def containsSeq (pat : List Char) : List Char → Bool
  | [] => pat.isEmpty
  | c :: cs => pat.isPrefixOf (c :: cs) || containsSeq pat cs

/-- Suffix test on character lists. -/
def endsWithL (suf l : List Char) : Bool := suf.reverse.isPrefixOf l.reverse

/-- One member of the zip archive: name and uncompressed size. -/
structure ZipEntry where
  name : String
  file_size : Nat
deriving DecidableEq, Repr

/-- n.lower().endswith(".csv") from the member-locating step. -/
def isCsvName (n : String) : Bool := endsWithL ".csv".data (pyLower n).data

/-- "npidata_pfile" in n.lower() from the member-locating step. -/
def hasMarker (n : String) : Bool := containsSeq "npidata_pfile".data (pyLower n).data

/-- max(csv_names, key=file_size): Python max keeps the first entry among
equals, replacing only on a strictly larger key. -/
def argmaxSize (e : ZipEntry) (es : List ZipEntry) : ZipEntry :=
  es.foldl (fun a b => if b.file_size > a.file_size then b else a) e

/-- Member location of main: restrict to .csv names, prefer one containing
the npidata_pfile marker, else the largest by size; none models the
unguarded failure of max() on an empty sequence. -/
def locateMainCsv (entries : List ZipEntry) : Option String :=
  let csvs := entries.filter (fun e => isCsvName e.name)
  match csvs.find? (fun e => hasMarker e.name) with
  | some e => some e.name
  | none =>
    match csvs with
    | [] => none
    | e :: es => some (argmaxSize e es).name

/-- Lowercased "NPPES_Data_Dissemination" (the regex is case-insensitive). -/
def dissemPat : List Char := "nppes_data_dissemination".data

/-- Tail of the regex after the version marker: a run of non-newline
characters, then ".zip" at the end of the string (the dollar anchor also
accepts one trailing newline). -/
def gapZip : List Char → Bool
  | [] => false
  | c :: cs =>
    (".zip".data.isPrefixOf (c :: cs)
      && (List.drop 4 (c :: cs) = [] || List.drop 4 (c :: cs) = ['\n']))
    || (c ≠ '\n' && gapZip cs)

/-- Tail of the regex after the fixed prefix: a run of non-newline
characters, then the marker "v2" or "v.2", then gapZip. -/
def afterMarkerOk : List Char → Bool
  | [] => false
  | c :: cs =>
    ("v2".data.isPrefixOf (c :: cs) && gapZip (List.drop 2 (c :: cs)))
    || ("v.2".data.isPrefixOf (c :: cs) && gapZip (List.drop 3 (c :: cs)))
    || (c ≠ '\n' && afterMarkerOk cs)

/-- re.search: the fixed prefix may start at any position. -/
def patSearch : List Char → Bool
  | [] => false
  | c :: cs =>
    (dissemPat.isPrefixOf (c :: cs) && afterMarkerOk (List.drop 24 (c :: cs)))
    || patSearch cs

/-- pat.search(u) for the candidate regex, case-insensitively. -/
def matchesV2Zip (u : String) : Bool := patSearch (pyLower u).data

/-- find_latest_monthly_v2 on the resolved link list of the index page:
filter by the pattern; raise if empty, else sorted(reverse=True)[0], the
maximum under plain string ordering. -/
def find_latest_monthly_v2 (links : List String) : Except String String :=
  match links.filter matchesV2Zip with
  | [] => .error "Could not find Monthly V2 file on CMS index page"
  | c :: cs => .ok (cs.foldl (fun a b => if a < b then b else a) c)

/-- The downloaded archive: its member listing and, per member name, the
pandas chunks its contents parse into. -/
structure Archive where
  entries : List ZipEntry
  chunksOf : String → List Batch

/-- The failure stages of main before the output file is touched. -/
inductive StageErr
  | discovery (msg : String)
  | network
  | noCsvMember
deriving DecidableEq, Repr

/-- main: discover the link, download (outcome given as input), locate the
member, and only then truncate the output file and run the chunk loop.
Returns the outcome (row total on success) and the final output file
contents, file0 being the pre-existing contents. -/
def runMain (links : List String) (fetched : Except Unit Archive)
    (file0 : List OutLine) : Except StageErr Nat × List OutLine :=
  match find_latest_monthly_v2 links with
  | .error m => (.error (StageErr.discovery m), file0)
  | .ok _url =>
    match fetched with
    | .error _ => (.error StageErr.network, file0)
    | .ok zf =>
      match locateMainCsv zf.entries with
      | none => (.error StageErr.noCsvMember, file0)
      | some nm =>
        let st := processChunks (zf.chunksOf nm)
        (.ok st.total, st.file)

/-- The 3-row scenario batch of the spec: header NPI, NPI Deactivation Date,
Provider Business Practice Location Address State; the empty deactivation
fields are NaN after pandas parsing. -/
def scenarioBatch : Batch :=
  ⟨["NPI", "NPI Deactivation Date", "Provider Business Practice Location Address State"],
   [[some "1", none, some "DE"],
    [some "2", some "2020-01-01", some "DE"],
    [some "3", none, some "NY"]]⟩

/-! Helper lemmas about the chunk loop and the selection folds. -/

/-- Membership in a filtered batch is membership in the batch plus both row
predicates, read over the stripped header. -/
theorem mem_filterBatch {b : Batch} {r : Row} :
    r ∈ (filterBatch b).rows ↔
      r ∈ b.rows ∧ activeKeep (stripHeader b.header) r = true
        ∧ stateKeep (stripHeader b.header) r = true := by
  unfold filterBatch
  simp only [List.mem_filter]
  tauto

theorem stepChunk_total (st : LoopState) (b : Batch) :
    (stepChunk st b).total = st.total + (filterBatch b).rows.length := by
  unfold stepChunk
  by_cases h : (filterBatch b).rows.isEmpty
  · simp [h, List.isEmpty_iff.mp h]
  · simp [h]

theorem stepChunk_hw (st : LoopState) (b : Batch) :
    (stepChunk st b).header_written
      = (st.header_written || !(filterBatch b).rows.isEmpty) := by
  unfold stepChunk
  by_cases h : (filterBatch b).rows.isEmpty
  · simp [h]
  · simp [h]

theorem rowLines_append (x y : List OutLine) :
    rowLines (x ++ y) = rowLines x ++ rowLines y := by
  simp [rowLines, List.filter_append]

theorem hdrCount_append (x y : List OutLine) :
    hdrCount (x ++ y) = hdrCount x + hdrCount y := by
  simp [hdrCount, List.filter_append]

theorem rowLines_rowMap (l : List Row) :
    rowLines (l.map (fun r => OutLine.row (rowOut r)))
      = l.map (fun r => OutLine.row (rowOut r)) := by
  apply List.filter_eq_self.mpr
  intro a ha
  rcases List.mem_map.mp ha with ⟨r, _, rfl⟩
  rfl

theorem hdrCount_rowMap (l : List Row) :
    hdrCount (l.map (fun r => OutLine.row (rowOut r))) = 0 := by
  unfold hdrCount
  rw [List.length_eq_zero]
  apply List.filter_eq_nil_iff.mpr
  intro a ha
  rcases List.mem_map.mp ha with ⟨r, _, rfl⟩
  simp

theorem stepChunk_rowLines (st : LoopState) (b : Batch) :
    rowLines (stepChunk st b).file
      = rowLines st.file
        ++ (filterBatch b).rows.map (fun r => OutLine.row (rowOut r)) := by
  unfold stepChunk
  by_cases h : (filterBatch b).rows.isEmpty
  · simp [h, List.isEmpty_iff.mp h]
  · by_cases hw : st.header_written
    · simp [h, hw, rowLines_append, rowLines_rowMap]
    · simp [h, hw, rowLines_append, rowLines_rowMap, rowLines]

theorem stepChunk_hdrCount (st : LoopState) (b : Batch) :
    hdrCount (stepChunk st b).file
      = hdrCount st.file
        + (if st.header_written || (filterBatch b).rows.isEmpty then 0 else 1) := by
  unfold stepChunk
  by_cases h : (filterBatch b).rows.isEmpty
  · simp [h]
  · by_cases hw : st.header_written
    · simp [h, hw, hdrCount_append, hdrCount_rowMap]
    · simp [h, hw, hdrCount_append, hdrCount_rowMap, hdrCount]

theorem foldl_total (chunks : List Batch) : ∀ st : LoopState,
    (List.foldl stepChunk st chunks).total
      = st.total + (chunks.map (fun b => (filterBatch b).rows.length)).sum := by
  induction chunks with
  | nil => intro st; simp
  | cons b bs ih =>
    intro st
    rw [List.foldl_cons, ih, stepChunk_total]
    simp [Nat.add_assoc]

theorem foldl_rowLines (chunks : List Batch) : ∀ st : LoopState,
    rowLines (List.foldl stepChunk st chunks).file
      = rowLines st.file
        ++ (chunks.map
            (fun b => (filterBatch b).rows.map (fun r => OutLine.row (rowOut r)))).flatten := by
  induction chunks with
  | nil => intro st; simp
  | cons b bs ih =>
    intro st
    rw [List.foldl_cons, ih, stepChunk_rowLines]
    simp [List.append_assoc]

theorem foldl_hw (chunks : List Batch) : ∀ st : LoopState,
    (List.foldl stepChunk st chunks).header_written
      = (st.header_written || chunks.any (fun b => !(filterBatch b).rows.isEmpty)) := by
  induction chunks with
  | nil => intro st; simp
  | cons b bs ih =>
    intro st
    rw [List.foldl_cons, ih, stepChunk_hw]
    simp [List.any_cons, Bool.or_assoc]

theorem foldl_hdrCount (chunks : List Batch) : ∀ st : LoopState,
    hdrCount (List.foldl stepChunk st chunks).file
      = hdrCount st.file
        + (if st.header_written then 0
           else if chunks.any (fun b => !(filterBatch b).rows.isEmpty) then 1 else 0) := by
  induction chunks with
  | nil =>
    intro st
    cases hw : st.header_written <;> simp [hw]
  | cons b bs ih =>
    intro st
    rw [List.foldl_cons, ih, stepChunk_hdrCount, stepChunk_hw]
    cases hw : st.header_written with
    | true => simp
    | false =>
      cases he : (filterBatch b).rows.isEmpty with
      | true => simp [List.any_cons, he]
      | false => simp [List.any_cons, he, Nat.add_assoc]

theorem foldl_all_empty (chunks : List Batch) : ∀ st : LoopState,
    (∀ b ∈ chunks, (filterBatch b).rows = []) →
    List.foldl stepChunk st chunks = st := by
  induction chunks with
  | nil => intro st _; rfl
  | cons b bs ih =>
    intro st h
    have hb : (filterBatch b).rows = [] := h b (by simp)
    have hstep : stepChunk st b = st := by unfold stepChunk; simp [hb]
    rw [List.foldl_cons, hstep, ih st (fun x hx => h x (by simp [hx]))]

theorem foldl_strmax_mem (cs : List String) : ∀ c : String,
    cs.foldl (fun a b => if a < b then b else a) c ∈ c :: cs := by
  induction cs with
  | nil => intro c; simp
  | cons b bs ih =>
    intro c
    rw [List.foldl_cons]
    rcases List.mem_cons.mp (ih (if c < b then b else c)) with h | h
    · rw [h]
      by_cases hcb : c < b
      · simp [hcb]
      · simp [hcb]
    · exact List.mem_cons_of_mem _ (List.mem_cons_of_mem _ h)

theorem foldl_strmax_ge (cs : List String) : ∀ c x : String,
    x ∈ c :: cs → x ≤ cs.foldl (fun a b => if a < b then b else a) c := by
  induction cs with
  | nil =>
    intro c x hx
    simp at hx
    simp [hx]
  | cons b bs ih =>
    intro c x hx
    rw [List.foldl_cons]
    have hc : c ≤ if c < b then b else c := by
      by_cases h : c < b
      · simpa [h] using le_of_lt h
      · simp [h]
    have hb : b ≤ if c < b then b else c := by
      by_cases h : c < b
      · simp [h]
      · simpa [h] using le_of_not_lt h
    rcases List.mem_cons.mp hx with rfl | hx'
    · exact le_trans hc (ih _ _ (by simp))
    · rcases List.mem_cons.mp hx' with rfl | hx''
      · exact le_trans hb (ih _ _ (by simp))
      · exact ih _ x (by simp [hx''])

theorem argmaxSize_cons (e b : ZipEntry) (bs : List ZipEntry) :
    argmaxSize e (b :: bs)
      = argmaxSize (if b.file_size > e.file_size then b else e) bs := rfl

theorem argmaxSize_mem (es : List ZipEntry) : ∀ e : ZipEntry,
    argmaxSize e es ∈ e :: es := by
  induction es with
  | nil => intro e; simp [argmaxSize]
  | cons b bs ih =>
    intro e
    rw [argmaxSize_cons]
    rcases List.mem_cons.mp (ih (if b.file_size > e.file_size then b else e)) with h | h
    · rw [h]
      by_cases hbe : b.file_size > e.file_size
      · simp [hbe]
      · simp [hbe]
    · exact List.mem_cons_of_mem _ (List.mem_cons_of_mem _ h)

theorem argmaxSize_ge (es : List ZipEntry) : ∀ e x : ZipEntry,
    x ∈ e :: es → x.file_size ≤ (argmaxSize e es).file_size := by
  induction es with
  | nil =>
    intro e x hx
    simp at hx
    simp [hx, argmaxSize]
  | cons b bs ih =>
    intro e x hx
    rw [argmaxSize_cons]
    have he : e.file_size ≤ (if b.file_size > e.file_size then b else e).file_size := by
      by_cases h : b.file_size > e.file_size
      · simpa [h] using le_of_lt h
      · simp [h]
    have hb : b.file_size ≤ (if b.file_size > e.file_size then b else e).file_size := by
      by_cases h : b.file_size > e.file_size
      · simp [h]
      · simpa [h] using le_of_not_lt h
    rcases List.mem_cons.mp hx with rfl | hx'
    · exact le_trans he (ih _ _ (by simp))
    · rcases List.mem_cons.mp hx' with rfl | hx''
      · exact le_trans hb (ih _ _ (by simp))
      · exact ih _ x (by simp [hx''])

/-- The two successive filters of a batch collapse to one filter by the
conjunction of the predicates. -/
theorem filterBatch_eq (b : Batch) :
    (filterBatch b).rows
      = b.rows.filter (fun r => activeKeep (stripHeader b.header) r
          && stateKeep (stripHeader b.header) r) := by
  show (b.rows.filter (fun r => activeKeep (stripHeader b.header) r)).filter
      (fun r => stateKeep (stripHeader b.header) r) = _
  rw [List.filter_filter]
  congr 1
  funext r
  exact Bool.and_comm _ _

/-! The claims. -/

/-- Claim C6: the 3-row batch with header NPI, NPI Deactivation Date,
Provider Business Practice Location Address State and rows (1, NaN, DE),
(2, 2020-01-01, DE), (3, NaN, NY), filtered with target region DE, keeps
exactly the row (1, NaN, DE), and a run on this single chunk counts one
output row. -/
theorem claim6_scenario_batch :
    (filterBatch scenarioBatch).rows = [[some "1", none, some "DE"]]
      ∧ (processChunks [scenarioBatch]).total = 1 := by
  constructor
  · decide
  · decide

/-- Claim C7: an archive with zero tabular (.csv) members makes the member
locator fail: the fallback max() runs on an empty candidate list, modelled
as none, and no explicit no-data-file-found condition exists in the code. -/
theorem claim7_no_csv_member_unguarded (entries : List ZipEntry)
    (h : ∀ e ∈ entries, isCsvName e.name = false) :
    locateMainCsv entries = none := by
  unfold locateMainCsv
  have hnil : entries.filter (fun e => isCsvName e.name) = [] := by
    apply List.filter_eq_nil_iff.mpr
    intro e he
    simp [h e he]
  rw [hnil]
  rfl

/-- Concrete instance of claim7_no_csv_member_unguarded: an archive holding
only readme.txt has no csv member and the locator returns none. -/
theorem claim7_witness :
    (∀ e ∈ ([⟨"readme.txt", 1000⟩] : List ZipEntry), isCsvName e.name = false)
      ∧ locateMainCsv [⟨"readme.txt", 1000⟩] = none :=
  ⟨by decide, claim7_no_csv_member_unguarded [⟨"readme.txt", 1000⟩] (by decide)⟩

/-- Claim C10: when a state column is present in the stripped header, a row
whose state cell is NaN stringifies to nan, upper-cases to NAN, never equals
the region code DE, and so is excluded from the filtered batch, even though
a NaN deactivation cell counts as active. -/
theorem claim10_null_state_excluded (b : Batch) (r : Row) (c : String)
    (hfind : STATE_COLS.find? (fun x => (stripHeader b.header).contains x) = some c)
    (hcell : getCell (stripHeader b.header) r c = none) :
    stateKeep (stripHeader b.header) r = false ∧ r ∉ (filterBatch b).rows := by
  have hstate : stateKeep (stripHeader b.header) r = false := by
    unfold stateKeep
    rw [hfind]
    show (pyStrip (pyUpper (cellStr (getCell (stripHeader b.header) r c))) == FILTER_STATE)
      = false
    rw [hcell]
    decide
  refine ⟨hstate, ?_⟩
  intro hmem
  have hkeep := (mem_filterBatch.mp hmem).2.2
  rw [hstate] at hkeep
  exact Bool.false_ne_true hkeep

/-- Concrete instance of claim10_null_state_excluded: a one-column batch
whose only row has a NaN state cell keeps nothing. -/
theorem claim10_witness :
    STATE_COLS.find?
        (fun x => (stripHeader ["Provider Business Practice Location Address State"]).contains x)
      = some "Provider Business Practice Location Address State"
    ∧ getCell (stripHeader ["Provider Business Practice Location Address State"])
        [(none : Cell)] "Provider Business Practice Location Address State" = none
    ∧ (stateKeep (stripHeader (Batch.mk ["Provider Business Practice Location Address State"]
          [[(none : Cell)]]).header) [(none : Cell)] = false
        ∧ [(none : Cell)] ∉ (filterBatch (Batch.mk
            ["Provider Business Practice Location Address State"] [[(none : Cell)]])).rows) :=
  ⟨by decide, by decide,
    claim10_null_state_excluded
      (Batch.mk ["Provider Business Practice Location Address State"] [[(none : Cell)]])
      [(none : Cell)] "Provider Business Practice Location Address State"
      (by decide) (by decide)⟩

/-- Claim C5: a batch whose stripped header holds no accepted alias of the
deactivation column (respectively of the state column) drops no row on that
dimension: the predicate is constantly true and the filtered rows are
exactly the rows passing the other predicate alone. -/
theorem claim5_absent_column_vacuous (b : Batch) :
    ((∀ c ∈ DEACTIVATION_COLS, c ∉ stripHeader b.header) →
      (∀ r : Row, activeKeep (stripHeader b.header) r = true)
        ∧ (filterBatch b).rows
            = b.rows.filter (fun r => stateKeep (stripHeader b.header) r))
    ∧ ((∀ c ∈ STATE_COLS, c ∉ stripHeader b.header) →
      (∀ r : Row, stateKeep (stripHeader b.header) r = true)
        ∧ (filterBatch b).rows
            = b.rows.filter (fun r => activeKeep (stripHeader b.header) r)) := by
  constructor
  · intro h
    have hfind : DEACTIVATION_COLS.find?
        (fun c => (stripHeader b.header).contains c) = none := by
      apply List.find?_eq_none.mpr
      intro c hc
      simp [h c hc]
    have hact : ∀ r : Row, activeKeep (stripHeader b.header) r = true := by
      intro r
      unfold activeKeep
      rw [hfind]
    refine ⟨hact, ?_⟩
    show (b.rows.filter (fun r => activeKeep (stripHeader b.header) r)).filter
        (fun r => stateKeep (stripHeader b.header) r) = _
    rw [List.filter_eq_self.mpr (fun r _ => hact r)]
  · intro h
    have hfind : STATE_COLS.find?
        (fun c => (stripHeader b.header).contains c) = none := by
      apply List.find?_eq_none.mpr
      intro c hc
      simp [h c hc]
    have hst : ∀ r : Row, stateKeep (stripHeader b.header) r = true := by
      intro r
      unfold stateKeep
      rw [hfind]
    refine ⟨hst, ?_⟩
    show (b.rows.filter (fun r => activeKeep (stripHeader b.header) r)).filter
        (fun r => stateKeep (stripHeader b.header) r) = _
    rw [List.filter_eq_self.mpr (fun r hr => hst r)]

/-- Concrete instance of claim5_absent_column_vacuous: a batch with header
NPI only has neither alias, so both predicates are vacuous and the batch
passes through whole. -/
theorem claim5_witness :
    (∀ c ∈ DEACTIVATION_COLS, c ∉ stripHeader (Batch.mk ["NPI"] [[some "1"]]).header)
      ∧ (filterBatch (Batch.mk ["NPI"] [[some "1"]])).rows
          = [[some "1"]].filter
              (fun r => stateKeep (stripHeader (Batch.mk ["NPI"] [[some "1"]]).header) r) :=
  ⟨by decide, ((claim5_absent_column_vacuous (Batch.mk ["NPI"] [[some "1"]])).1 (by decide)).2⟩

/-- Claim C1: for every chunk list, a batch's filtered rows are exactly its
rows on which both row predicates hold, the data lines of the output are the
concatenation of the filtered batches in order, and the final total equals
the sum over batches of the rows satisfying both predicates. -/
theorem claim1_row_filter_conservation (chunks : List Batch) :
    (∀ b : Batch,
      (filterBatch b).rows
          = b.rows.filter (fun r => activeKeep (stripHeader b.header) r
              && stateKeep (stripHeader b.header) r)
        ∧ ∀ r : Row, r ∈ (filterBatch b).rows ↔
            r ∈ b.rows ∧ activeKeep (stripHeader b.header) r = true
              ∧ stateKeep (stripHeader b.header) r = true)
    ∧ rowLines (processChunks chunks).file
        = (chunks.map
            (fun b => (filterBatch b).rows.map (fun r => OutLine.row (rowOut r)))).flatten
    ∧ (processChunks chunks).total
        = (chunks.map (fun b => (filterBatch b).rows.length)).sum := by
  refine ⟨fun b => ⟨filterBatch_eq b, fun r => mem_filterBatch⟩, ?_, ?_⟩
  · have h := foldl_rowLines chunks ⟨[], false, 0⟩
    simpa [processChunks, rowLines] using h
  · have h := foldl_total chunks ⟨[], false, 0⟩
    simpa [processChunks] using h

/-- Claim C3: the output holds the header exactly once when some batch
survives filtering and no header at all otherwise; when every batch filters
to empty the output file stays exactly as truncation left it, empty. -/
theorem claim3_header_once (chunks : List Batch) :
    hdrCount (processChunks chunks).file
        = (if chunks.any (fun b => !(filterBatch b).rows.isEmpty) then 1 else 0)
      ∧ ((∀ b ∈ chunks, (filterBatch b).rows = []) → (processChunks chunks).file = []) := by
  constructor
  · have h := foldl_hdrCount chunks ⟨[], false, 0⟩
    simpa [processChunks, hdrCount] using h
  · intro h
    have he := foldl_all_empty chunks ⟨[], false, 0⟩ h
    unfold processChunks
    rw [he]

/-- Concrete instance of claim3_header_once: one batch whose single row has
state NY filters to empty, so the output file stays empty. -/
theorem claim3_witness :
    (∀ b ∈ [Batch.mk ["Provider Business Practice Location Address State"] [[some "NY"]]],
        (filterBatch b).rows = [])
      ∧ (processChunks
          [Batch.mk ["Provider Business Practice Location Address State"] [[some "NY"]]]).file
        = [] :=
  ⟨by decide,
    (claim3_header_once
        [Batch.mk ["Provider Business Practice Location Address State"] [[some "NY"]]]).2
      (by decide)⟩

/-- Claim C2: on a link list with at least one match of the candidate
pattern, find_latest_monthly_v2 returns a matching link of the list that is
greatest under plain string ordering; with zero matches it raises the
could-not-find condition. -/
theorem claim2_latest_selector (links : List String) :
    (links.filter matchesV2Zip = [] →
      find_latest_monthly_v2 links
        = Except.error "Could not find Monthly V2 file on CMS index page")
    ∧ (∀ c cs, links.filter matchesV2Zip = c :: cs →
        ∃ m, find_latest_monthly_v2 links = Except.ok m
          ∧ m ∈ links ∧ matchesV2Zip m = true
          ∧ ∀ u ∈ links, matchesV2Zip u = true → u ≤ m) := by
  constructor
  · intro h
    unfold find_latest_monthly_v2
    rw [h]
  · intro c cs h
    refine ⟨cs.foldl (fun a b => if a < b then b else a) c, ?_, ?_, ?_, ?_⟩
    · unfold find_latest_monthly_v2
      rw [h]
    · have hm := foldl_strmax_mem cs c
      rw [← h] at hm
      exact (List.mem_filter.mp hm).1
    · have hm := foldl_strmax_mem cs c
      rw [← h] at hm
      exact (List.mem_filter.mp hm).2
    · intro u hu hmu
      apply foldl_strmax_ge
      rw [← h]
      exact List.mem_filter.mpr ⟨hu, hmu⟩

/-- Concrete instance of claim2_latest_selector: a page with two matching
links selects the greatest, and a page with none raises the condition. -/
theorem claim2_witness :
    ["a.zip", "nppes_data_dissemination_april_v2.zip",
        "nppes_data_dissemination_may_v2.zip"].filter matchesV2Zip
      = "nppes_data_dissemination_april_v2.zip" :: ["nppes_data_dissemination_may_v2.zip"]
    ∧ (∃ m, find_latest_monthly_v2
          ["a.zip", "nppes_data_dissemination_april_v2.zip",
            "nppes_data_dissemination_may_v2.zip"] = Except.ok m
        ∧ m ∈ ["a.zip", "nppes_data_dissemination_april_v2.zip",
            "nppes_data_dissemination_may_v2.zip"]
        ∧ matchesV2Zip m = true
        ∧ ∀ u ∈ ["a.zip", "nppes_data_dissemination_april_v2.zip",
            "nppes_data_dissemination_may_v2.zip"], matchesV2Zip u = true → u ≤ m)
    ∧ ["a.zip"].filter matchesV2Zip = []
    ∧ find_latest_monthly_v2 ["a.zip"]
        = Except.error "Could not find Monthly V2 file on CMS index page" :=
  ⟨by decide,
    (claim2_latest_selector _).2 "nppes_data_dissemination_april_v2.zip"
      ["nppes_data_dissemination_may_v2.zip"] (by decide),
    by decide,
    (claim2_latest_selector ["a.zip"]).1 (by decide)⟩

/-- Claim C4: the member locator restricts to entries whose lowered name
ends in .csv; when some csv entry carries the npidata_pfile marker, the
first such entry is selected regardless of size; otherwise the csv entry
largest by uncompressed size is selected. -/
theorem claim4_member_locator (entries : List ZipEntry) :
    (∀ e : ZipEntry,
      (entries.filter (fun x => isCsvName x.name)).find? (fun x => hasMarker x.name)
          = some e →
        locateMainCsv entries = some e.name
          ∧ e ∈ entries ∧ isCsvName e.name = true ∧ hasMarker e.name = true)
    ∧ ((entries.filter (fun x => isCsvName x.name)).find? (fun x => hasMarker x.name)
          = none →
      ∀ e es, entries.filter (fun x => isCsvName x.name) = e :: es →
        ∃ a : ZipEntry, locateMainCsv entries = some a.name
          ∧ a ∈ entries ∧ isCsvName a.name = true
          ∧ ∀ x ∈ entries, isCsvName x.name = true → x.file_size ≤ a.file_size) := by
  constructor
  · intro e he
    refine ⟨?_, ?_, ?_, ?_⟩
    · simp only [locateMainCsv, he]
    · exact (List.mem_filter.mp (List.mem_of_find?_eq_some he)).1
    · exact (List.mem_filter.mp (List.mem_of_find?_eq_some he)).2
    · simpa using List.find?_some he
  · intro hn e es hcs
    refine ⟨argmaxSize e es, ?_, ?_, ?_, ?_⟩
    · rw [hcs] at hn
      simp only [locateMainCsv, hcs, hn]
    · have hm := argmaxSize_mem es e
      rw [← hcs] at hm
      exact (List.mem_filter.mp hm).1
    · have hm := argmaxSize_mem es e
      rw [← hcs] at hm
      exact (List.mem_filter.mp hm).2
    · intro x hx hcsv
      apply argmaxSize_ge
      rw [← hcs]
      exact List.mem_filter.mpr ⟨hx, hcsv⟩

/-- Concrete instance of claim4_member_locator: the spec scenario with a
small marker-matching member and a larger non-matching member selects the
marker-matching one. -/
theorem claim4_witness :
    (([⟨"othersmall.csv", 999⟩, ⟨"npidata_pfile_20240101-20240107.csv", 5⟩] :
          List ZipEntry).filter (fun x => isCsvName x.name)).find?
        (fun x => hasMarker x.name)
      = some ⟨"npidata_pfile_20240101-20240107.csv", 5⟩
    ∧ locateMainCsv [⟨"othersmall.csv", 999⟩, ⟨"npidata_pfile_20240101-20240107.csv", 5⟩]
        = some "npidata_pfile_20240101-20240107.csv" :=
  ⟨by decide,
    ((claim4_member_locator
          [⟨"othersmall.csv", 999⟩, ⟨"npidata_pfile_20240101-20240107.csv", 5⟩]).1
        ⟨"npidata_pfile_20240101-20240107.csv", 5⟩ (by decide)).1⟩

/-- Claim C8: a run that succeeds does not depend on the pre-existing output
file contents: the file is truncated before the loop, so re-running the
pipeline on the same inputs yields the identical outcome and byte-identical
output, with row order preserved. -/
theorem claim8_rerun_identical (links : List String) (fetched : Except Unit Archive)
    (f1 f2 : List OutLine) (n : Nat)
    (h : (runMain links fetched f1).1 = Except.ok n) :
    runMain links fetched f1 = runMain links fetched f2 := by
  rcases hf : find_latest_monthly_v2 links with m | u
  · simp [runMain, hf] at h
  · rcases fetched with er | zf
    · simp [runMain, hf] at h
    · rcases hl : locateMainCsv zf.entries with _ | nm
      · simp [runMain, hf, hl] at h
      · simp [runMain, hf, hl]

/-- Concrete instance of claim8_rerun_identical: a successful run over a
one-chunk archive gives the same result whether the output file previously
held a stale line or was empty. -/
theorem claim8_witness :
    (runMain ["nppes_data_dissemination_v2.zip"]
        (Except.ok ⟨[⟨"npidata_pfile.csv", 1⟩], fun _ => [scenarioBatch]⟩)
        [OutLine.row ["stale"]]).1 = Except.ok 1
      ∧ runMain ["nppes_data_dissemination_v2.zip"]
          (Except.ok ⟨[⟨"npidata_pfile.csv", 1⟩], fun _ => [scenarioBatch]⟩)
          [OutLine.row ["stale"]]
        = runMain ["nppes_data_dissemination_v2.zip"]
            (Except.ok ⟨[⟨"npidata_pfile.csv", 1⟩], fun _ => [scenarioBatch]⟩) [] :=
  ⟨rfl,
    claim8_rerun_identical ["nppes_data_dissemination_v2.zip"]
      (Except.ok ⟨[⟨"npidata_pfile.csv", 1⟩], fun _ => [scenarioBatch]⟩)
      [OutLine.row ["stale"]] [] 1 rfl⟩

/-- Claim C9: the output file is first modified only after link discovery,
download, and member location have all succeeded; when the run fails in any
of those stages the pre-existing output file contents are unchanged. -/
theorem claim9_output_untouched_on_early_failure (links : List String)
    (fetched : Except Unit Archive) (file0 : List OutLine) (e : StageErr)
    (h : (runMain links fetched file0).1 = Except.error e) :
    (runMain links fetched file0).2 = file0 := by
  rcases hf : find_latest_monthly_v2 links with m | u
  · simp [runMain, hf]
  · rcases fetched with er | zf
    · simp [runMain, hf]
    · rcases hl : locateMainCsv zf.entries with _ | nm
      · simp [runMain, hf, hl]
      · simp [runMain, hf, hl] at h

/-- Concrete instance of claim9_output_untouched_on_early_failure: with no
matching link on the index page the run fails at discovery and the old
output file line survives. -/
theorem claim9_witness :
    (runMain [] (Except.error ()) [OutLine.row ["old"]]).1
        = Except.error (StageErr.discovery "Could not find Monthly V2 file on CMS index page")
      ∧ (runMain [] (Except.error ()) [OutLine.row ["old"]]).2 = [OutLine.row ["old"]] :=
  ⟨rfl,
    claim9_output_untouched_on_early_failure [] (Except.error ()) [OutLine.row ["old"]]
      (StageErr.discovery "Could not find Monthly V2 file on CMS index page") rfl⟩

end NPPES
